import Mathlib

/-!
Verification of the ytdlp_utils download supervisor against its
natural-language specification.  The definitions below are shallow
embeddings of the Python sources: `YtdlSubprocessRunner`
(ytdl_subprocess_runner.py), the `Video` value object
(ytdlp_utils/video.py), the yt-dlp hook based `DownloadHandler`
(ytdlp_utils/download_handler.py), the terminal screen
(ytdlp_utils/overwriteable.py, ytdlp_utils/status_line.py) and the two
link-resolution pipelines (ytdl_text_link_parser.py,
ytdlp_utils/text_link_parser.py).  Machine integers are modelled as
`Nat`/`Int`, Python floats appearing in progress arithmetic as `Rat`,
raised exceptions as `Option`/`none`, and mutable object state as
explicit state records.
-/

namespace YtdlpUtils

/-- Message severity forms used by the `Message` helper class
(`"ok"`, `"info"`, `"warn"`, `"error"`, `"exit"`). -/
inductive MsgForm
  | ok
  | info
  | warn
  | error
  | exit
deriving DecidableEq, Repr

/-- A message put on a runner's message queue: severity form plus text. -/
structure Msg where
  form : MsgForm
  text : String
deriving DecidableEq, Repr

/-! ## YtdlSubprocessRunner state (ytdl_subprocess_runner.py)

The runner's mutable state: `_ok`, the `_restart` loop flag, `_stage`,
and the `data` dict entries `progress`, `restart_count`, `slow_count`.
The video id and wall-clock times only feed message texts and are not
part of the control state. -/
structure SpState where
  ok : Bool
  restartFlag : Bool
  stage : Nat
  progress : Nat
  restartCount : Nat
  slowCount : Nat
deriving DecidableEq, Repr

/-- Initial runner state: `_ok = True`, the restart loop runs, `_stage`
as given (class default 0), and `_store_data` initialises `progress`,
`restart_count` and `slow_count` to 0. -/
def spInit (stage : Nat) : SpState :=
  { ok := true
    restartFlag := true
    stage := stage
    progress := 0
    restartCount := 0
    slowCount := 0 }

/-- Why a restart was requested: internal cause codes `0x2510` (slow
speed limit) and `0x0403` (HTTP 403) of `_restart`. -/
inductive Cause
  | slow
  | http403
deriving DecidableEq, Repr

/-- Result of one `_restart` invocation: the state after the call, the
messages put on the queue, and whether `_decrement_stage` raised
`RuntimeError` (it raises when `_stage` is already 0). -/
structure RestartResult where
  state : SpState
  msgs : List Msg
  raised : Bool
deriving DecidableEq, Repr

/-- `YtdlSubprocessRunner._decrement_stage`: decrement `_stage` when it
is positive, otherwise raise `RuntimeError` (modelled as `none`). -/
def decrement_stage (stage : Nat) : Option Nat :=
  if stage > 0 then some (stage - 1) else none

/-- `YtdlSubprocessRunner._increment_stage`: unconditionally increment
`_stage`. -/
def increment_stage (stage : Nat) : Nat :=
  stage + 1

/-- `YtdlSubprocessRunner._restart`: kill the process, compute
`rsc = restart_count + 1`; if `rsc` exceeds the limit, clear `_ok` and
the loop flag and return (the stored count is not updated).  Otherwise
emit a cause-specific warning, store `restart_count = rsc` with
`slow_count = 0`, and decrement the stage. -/
def spRestart (restartLimit : Nat) (cause : Cause) (s : SpState) : RestartResult :=
  let rsc := s.restartCount + 1
  if rsc > restartLimit then
    { state := { s with ok := false, restartFlag := false }
      msgs := [⟨MsgForm.warn, "Restart limit reached"⟩]
      raised := false }
  else
    let m : Msg :=
      match cause with
      | Cause.slow =>
          ⟨MsgForm.warn,
            s!"Reached slow speed limit, restarting (remaining: {restartLimit - rsc})"⟩
      | Cause.http403 =>
          ⟨MsgForm.warn,
            s!"Received HTTP Error 403, restarting (remaining: {restartLimit - rsc})"⟩
    let s1 := { s with restartCount := rsc, slowCount := 0 }
    match decrement_stage s1.stage with
    | some st => { state := { s1 with stage := st }, msgs := [m], raised := false }
    | none => { state := s1, msgs := [m], raised := true }

/-- One restart attempt as seen by the retry loop: the restart policy
only runs while the job is still live (`_restart` loop flag still set);
once the job is retired nothing further happens. -/
def spAttempt (restartLimit : Nat) (s : SpState) : SpState :=
  if s.restartFlag then (spRestart restartLimit Cause.slow s).state else s

/-- Iterate `n` restart attempts from a starting state. -/
def spAttemptIter (restartLimit : Nat) (s0 : SpState) : Nat → SpState
  | 0 => s0
  | n + 1 => spAttempt restartLimit (spAttemptIter restartLimit s0 n)

/-- Closed form of the attempt iteration while the budget lasts:
after `n ≤ limit` attempts the job is still live with stored restart
count exactly `n`. -/
theorem spAttemptIter_of_le (limit stage : Nat) :
    ∀ n, n ≤ limit →
      spAttemptIter limit (spInit stage) n =
        { ok := true
          restartFlag := true
          stage := stage - n
          progress := 0
          restartCount := n
          slowCount := 0 } := by
  intro n
  induction n with
  | zero =>
      intro _
      simp [spAttemptIter, spInit]
  | succ k ih =>
      intro hk
      have hk' : k ≤ limit := Nat.le_of_succ_le hk
      rw [spAttemptIter, ih hk']
      simp only [spAttempt, spRestart]
      have hnot : ¬ (k + 1 > limit) := by omega
      simp only [if_pos rfl, hnot, if_false, if_true]
      by_cases hst : stage - k > 0
      · simp only [decrement_stage, hst, if_true]
        have : stage - k - 1 = stage - (k + 1) := by omega
        simp [this]
      · simp only [decrement_stage, hst, if_false]
        have : stage - k = stage - (k + 1) := by omega
        simp [this]

/-- Closed form of the attempt iteration once the budget is exhausted:
after more than `limit` attempts the job is retired (`ok = false`, loop
flag cleared) with stored restart count frozen at `limit`. -/
theorem spAttemptIter_of_gt (limit stage : Nat) :
    ∀ n, limit < n →
      spAttemptIter limit (spInit stage) n =
        { ok := false
          restartFlag := false
          stage := stage - limit
          progress := 0
          restartCount := limit
          slowCount := 0 } := by
  intro n
  induction n with
  | zero => omega
  | succ k ih =>
      intro hk
      by_cases hkl : limit < k
      · rw [spAttemptIter, ih hkl]
        simp [spAttempt]
      · have hke : k = limit := by omega
        subst hke
        rw [spAttemptIter, spAttemptIter_of_le k stage k (Nat.le_refl k)]
        simp only [spAttempt, spRestart]
        have hgt : k + 1 > k := by omega
        simp [hgt]

/-- C1.  For every job and every sequence of restart attempts, the
stored restart count never exceeds `restartLimit + 1`; the job is
retired as permanently failed (`_ok = false`) if and only if some
restart was attempted while the stored count equalled the configured
limit; and once the loop flag is cleared a further attempt changes
nothing, so the job is not retried further. -/
theorem restart_budget_c1 (limit stage n : Nat) :
    (spAttemptIter limit (spInit stage) n).restartCount ≤ limit + 1 ∧
    ((spAttemptIter limit (spInit stage) n).ok = false ↔
      ∃ k < n, (spAttemptIter limit (spInit stage) k).restartFlag = true ∧
        (spAttemptIter limit (spInit stage) k).restartCount = limit) ∧
    ((spAttemptIter limit (spInit stage) n).restartFlag = false →
      spAttemptIter limit (spInit stage) (n + 1) =
        spAttemptIter limit (spInit stage) n) := by
  refine ⟨?_, ⟨?_, ?_⟩, ?_⟩
  · by_cases h : n ≤ limit
    · rw [spAttemptIter_of_le limit stage n h]
      show n ≤ limit + 1
      omega
    · rw [spAttemptIter_of_gt limit stage n (by omega)]
      show limit ≤ limit + 1
      omega
  · intro hok
    by_cases h : n ≤ limit
    · rw [spAttemptIter_of_le limit stage n h] at hok
      simp at hok
    · refine ⟨limit, by omega, ?_, ?_⟩
      · rw [spAttemptIter_of_le limit stage limit (Nat.le_refl limit)]
      · rw [spAttemptIter_of_le limit stage limit (Nat.le_refl limit)]
  · rintro ⟨k, hkn, hflag, hcount⟩
    by_cases h : k ≤ limit
    · rw [spAttemptIter_of_le limit stage k h] at hcount
      simp at hcount
      rw [spAttemptIter_of_gt limit stage n (by omega)]
    · rw [spAttemptIter_of_gt limit stage k (by omega)] at hflag
      simp at hflag
  · intro hflag
    rw [spAttemptIter]
    simp [spAttempt, hflag]

/-- Closed instance of `restart_budget_c1` at limit 2 after 5 attempts:
the stored count is bounded, the job is retired, and attempt 2 (with
count equal to the limit) is the reason. -/
theorem restart_budget_c1_witness :
    (spAttemptIter 2 (spInit 1) 5).restartCount ≤ 2 + 1 ∧
    ((spAttemptIter 2 (spInit 1) 5).ok = false ↔
      ∃ k < 5, (spAttemptIter 2 (spInit 1) k).restartFlag = true ∧
        (spAttemptIter 2 (spInit 1) k).restartCount = 2) ∧
    ((spAttemptIter 2 (spInit 1) 5).restartFlag = false →
      spAttemptIter 2 (spInit 1) (5 + 1) = spAttemptIter 2 (spInit 1) 5) :=
  restart_budget_c1 2 1 5

/-! ## Video value object (ytdlp_utils/video.py) -/

namespace Video

/-- The mutable stage/progress pair of a `Video` instance. -/
structure VState where
  stage : Nat
  progress : Nat
deriving DecidableEq, Repr

/-- `Video.decrement_stage`: guards against negative stages by setting
the stage to 0 when it is already at or below 0, otherwise decrements
it by one.  The progress field is untouched. -/
def decrement_stage (v : VState) : VState :=
  { v with stage := if v.stage ≤ 0 then 0 else v.stage - 1 }

/-- `Video.increment_stage`: resets progress to 0 and increments the
stage, clamping at 3. -/
def increment_stage (v : VState) : VState :=
  { stage := if 3 ≤ v.stage then 3 else v.stage + 1, progress := 0 }

end Video

/-- Concrete mid-download runner state: second download stage, stored
progress 55, untouched restart budget. -/
def c2State : SpState :=
  { ok := true
    restartFlag := true
    stage := 2
    progress := 55
    restartCount := 0
    slowCount := 3 }

/-- C2 counterexample.  A restart with budget remaining moves the stage
backward (from 2 to 1, below the stage active at restart time) and does
not reset the stored progress percentage (still 55), contradicting the
claim that a restart only resets progress and never moves the stage
backward. -/
theorem restart_moves_stage_backward_c2_cex :
    (spRestart 10 Cause.slow c2State).state.stage = 1 ∧
    c2State.stage = 2 ∧
    (spRestart 10 Cause.slow c2State).state.progress = 55 ∧
    c2State.progress = 55 := by
  refine ⟨rfl, rfl, rfl, rfl⟩

/-- C2 amended.  Outside restarts the runner only advances the stage
(`_increment_stage` adds one); an explicit restart with budget
remaining decrements the stage by exactly one, leaves the stored
progress unchanged, and increments the restart count;
`Video.decrement_stage` likewise moves the stage one step backward
(clamping at 0) without touching progress. -/
theorem restart_stage_c2_amended (limit : Nat) (c : Cause) (s : SpState)
    (hbudget : s.restartCount + 1 ≤ limit) (hstage : 0 < s.stage) :
    increment_stage s.stage = s.stage + 1 ∧
    (spRestart limit c s).state.stage = s.stage - 1 ∧
    (spRestart limit c s).state.progress = s.progress ∧
    (spRestart limit c s).state.restartCount = s.restartCount + 1 ∧
    Video.decrement_stage ⟨s.stage, s.progress⟩ = ⟨s.stage - 1, s.progress⟩ := by
  have hnot : ¬ (s.restartCount + 1 > limit) := by omega
  have hdec : decrement_stage s.stage = some (s.stage - 1) := by
    simp [decrement_stage, hstage]
  refine ⟨rfl, ?_, ?_, ?_, ?_⟩
  · simp [spRestart, hnot, hdec]
  · simp [spRestart, hnot, hdec]
  · simp [spRestart, hnot, hdec]
  · simp [Video.decrement_stage]
    omega

/-- Closed instance of `restart_stage_c2_amended` at the concrete
mid-download state. -/
theorem restart_stage_c2_witness :
    increment_stage c2State.stage = c2State.stage + 1 ∧
    (spRestart 10 Cause.slow c2State).state.stage = c2State.stage - 1 ∧
    (spRestart 10 Cause.slow c2State).state.progress = c2State.progress ∧
    (spRestart 10 Cause.slow c2State).state.restartCount = c2State.restartCount + 1 ∧
    Video.decrement_stage ⟨c2State.stage, c2State.progress⟩ =
      ⟨c2State.stage - 1, c2State.progress⟩ :=
  restart_stage_c2_amended 10 Cause.slow c2State (by decide) (by decide)

/-! ## Percentage milestones (`_check_percentage`) -/

/-- `YtdlSubprocessRunner._check_percentage`: the sample's integer
percentage part `pc` is floored to `rpc = pc - pc % 20`, a multiple of
20; when `rpc` reaches the stored progress plus 20 the progress is
updated to `rpc` and a status message announcing `rpc` is emitted,
otherwise nothing happens.  Returns the new stored progress and the
announced value, if any. -/
def check_percentage (progress : Nat) (pc : Nat) : Nat × Option Nat :=
  let rpc := pc - pc % 20
  if progress + 20 ≤ rpc then (rpc, some rpc) else (progress, none)

/-- Fold `_check_percentage` over a stream of integer percentage
samples: final stored progress and the announced values in order. -/
def run_percentage (progress : Nat) : List Nat → Nat × List Nat
  | [] => (progress, [])
  | pc :: rest =>
      match check_percentage progress pc with
      | (p1, some m) =>
          let r := run_percentage p1 rest
          (r.1, m :: r.2)
      | (p1, none) => run_percentage p1 rest

/-- Invariant of the percentage fold: every announced value is at least
the starting progress plus 20, is a multiple of 20, and consecutive
announcements grow by at least 20. -/
theorem run_percentage_spec (samples : List Nat) :
    ∀ p, (∀ x ∈ (run_percentage p samples).2, p + 20 ≤ x ∧ x % 20 = 0) ∧
      List.Pairwise (fun a b => a + 20 ≤ b) (run_percentage p samples).2 := by
  induction samples with
  | nil =>
      intro p
      simp [run_percentage]
  | cons pc rest ih =>
      intro p
      by_cases h : p + 20 ≤ pc - pc % 20
      · have hc : check_percentage p pc = (pc - pc % 20, some (pc - pc % 20)) := by
          simp [check_percentage, h]
        rcases ih (pc - pc % 20) with ⟨ihmem, ihpw⟩
        constructor
        · intro x hx
          simp only [run_percentage, hc] at hx
          rcases List.mem_cons.mp hx with hx | hx
          · subst hx
            exact ⟨h, by omega⟩
          · have := ihmem x hx
            exact ⟨by omega, this.2⟩
        · simp only [run_percentage, hc]
          exact List.pairwise_cons.mpr ⟨fun b hb => (ihmem b hb).1, ihpw⟩
      · have hc : check_percentage p pc = (p, none) := by
          simp [check_percentage, h]
        have := ih p
        constructor
        · intro x hx
          simp only [run_percentage, hc] at hx
          exact this.1 x hx
        · simp only [run_percentage, hc]
          exact this.2

/-- C3.  Within a single stage instance (stored progress starting at
0), the announced percentages form a strictly increasing, duplicate
free sequence of positive multiples of 20. -/
theorem percentage_messages_c3 (samples : List Nat) :
    List.Pairwise (fun a b => a < b) (run_percentage 0 samples).2 ∧
    (run_percentage 0 samples).2.Nodup ∧
    ∀ x ∈ (run_percentage 0 samples).2, 0 < x ∧ x % 20 = 0 := by
  rcases run_percentage_spec samples 0 with ⟨hmem, hpw⟩
  have hlt : List.Pairwise (fun a b => a < b) (run_percentage 0 samples).2 :=
    hpw.imp (by intro a b hab; omega)
  refine ⟨hlt, hlt.imp (by intro a b hab; omega), ?_⟩
  intro x hx
  have := hmem x hx
  exact ⟨by omega, this.2⟩

/-- Closed instance of `percentage_messages_c3` on the sample stream
3, 25, 25, 41, 99, 100: announcements are 20, 40, 80, 100. -/
theorem percentage_messages_c3_witness :
    List.Pairwise (fun a b => a < b) (run_percentage 0 [3, 25, 25, 41, 99, 100]).2 ∧
    (run_percentage 0 [3, 25, 25, 41, 99, 100]).2.Nodup ∧
    ∀ x ∈ (run_percentage 0 [3, 25, 25, 41, 99, 100]).2, 0 < x ∧ x % 20 = 0 :=
  percentage_messages_c3 [3, 25, 25, 41, 99, 100]

/-! ## Stall detector (`_check_speed`) -/

/-- Speed capture unit from the progress regex
`(?P<sp>\d+\.\d+[KM])iB\/s`: KiB/s samples are below the configured
floor, MiB/s samples at or above it. -/
inductive SpeedUnit
  | kib
  | mib
deriving DecidableEq, Repr

/-- `YtdlSubprocessRunner._check_speed`: a MiB/s sample stores
`slow_count = 0`; a KiB/s sample computes `slow_count + 1` and either
stores it (when within the slow limit) or invokes the restart policy
and returns without storing the incremented value. -/
def check_speed (slowLimit restartLimit : Nat) (s : SpState) (sp : SpeedUnit) : SpState :=
  match sp with
  | SpeedUnit.mib => { s with slowCount := 0 }
  | SpeedUnit.kib =>
      if s.slowCount + 1 > slowLimit then (spRestart restartLimit Cause.slow s).state
      else { s with slowCount := s.slowCount + 1 }

/-- Concrete detector state: counter already at the slow limit used in
the counterexample, budget untouched. -/
def c4State : SpState :=
  { ok := true
    restartFlag := true
    stage := 1
    progress := 40
    restartCount := 0
    slowCount := 2 }

/-- C4 counterexample.  With the slow limit 2 and the stored counter at
2, the next below-floor sample does not increment the counter to 3 —
the restart policy runs and the counter is stored as 0, contradicting
the claim that every below-floor sample increments the counter by
exactly one. -/
theorem slow_sample_not_incremented_c4_cex :
    (check_speed 2 10 c4State SpeedUnit.kib).slowCount = 0 ∧
    c4State.slowCount = 2 := by
  refine ⟨rfl, rfl⟩

/-- C4 amended.  An at-or-above-floor sample resets the counter to 0;
a below-floor sample increments it by exactly one only while the
incremented value stays within the slow limit — once it would exceed
the limit, the restart policy runs instead, which resets the counter to
0 when restart budget remains and leaves it unchanged when the budget
is exhausted. -/
theorem check_speed_c4_amended (slowLimit restartLimit : Nat) (s : SpState) :
    (check_speed slowLimit restartLimit s SpeedUnit.mib).slowCount = 0 ∧
    (s.slowCount + 1 ≤ slowLimit →
      (check_speed slowLimit restartLimit s SpeedUnit.kib).slowCount = s.slowCount + 1) ∧
    (slowLimit < s.slowCount + 1 → s.restartCount + 1 ≤ restartLimit →
      (check_speed slowLimit restartLimit s SpeedUnit.kib).slowCount = 0) ∧
    (slowLimit < s.slowCount + 1 → restartLimit < s.restartCount + 1 →
      (check_speed slowLimit restartLimit s SpeedUnit.kib).slowCount = s.slowCount) := by
  refine ⟨rfl, ?_, ?_, ?_⟩
  · intro hle
    have : ¬ (s.slowCount + 1 > slowLimit) := by omega
    simp [check_speed, this]
  · intro hgt hbudget
    have hnot : ¬ (s.restartCount + 1 > restartLimit) := by omega
    simp only [check_speed, if_pos (by omega : s.slowCount + 1 > slowLimit)]
    simp only [spRestart, hnot, if_false]
    cases hdec : decrement_stage s.stage with
    | some st => simp [hdec]
    | none => simp [hdec]
  · intro hgt hexhausted
    simp only [check_speed, if_pos (by omega : s.slowCount + 1 > slowLimit)]
    simp [spRestart, if_pos (by omega : s.restartCount + 1 > restartLimit)]

/-- Closed instance of `check_speed_c4_amended` exercising all four
branches at the concrete detector state. -/
theorem check_speed_c4_witness :
    (check_speed 5 10 c4State SpeedUnit.mib).slowCount = 0 ∧
    (check_speed 5 10 c4State SpeedUnit.kib).slowCount = c4State.slowCount + 1 ∧
    (check_speed 2 10 c4State SpeedUnit.kib).slowCount = 0 ∧
    (check_speed 2 0 c4State SpeedUnit.kib).slowCount = c4State.slowCount :=
  ⟨(check_speed_c4_amended 5 10 c4State).1,
   (check_speed_c4_amended 5 10 c4State).2.1 (by decide),
   (check_speed_c4_amended 2 10 c4State).2.2.1 (by decide) (by decide),
   (check_speed_c4_amended 2 0 c4State).2.2.2 (by decide) (by decide)⟩

/-! ## ProgressHook (ytdlp_utils/download_handler.py)

The yt-dlp hook based handler reports progress through
`ProgressHook.check_percentage`, which receives structured
`(numerator, denominator)` samples.  Python float arithmetic is
idealised as rational arithmetic; `round(x, 1)` is round-half-even to
one decimal. -/

/-- Floor of a rational as an integer (division of the numerator by the
positive denominator). -/
def ratFloor (q : ℚ) : ℤ :=
  q.num / q.den

/-- The explicit floor agrees with Mathlib's floor on `ℚ`. -/
theorem ratFloor_eq_floor (q : ℚ) : ratFloor q = ⌊q⌋ :=
  Rat.floor_def.symm

/-- Python `round` to an integer: round half to even. -/
def roundHalfEven (q : ℚ) : ℤ :=
  if q - ratFloor q < 1/2 then ratFloor q
  else if 1/2 < q - ratFloor q then ratFloor q + 1
  else if ratFloor q % 2 = 0 then ratFloor q else ratFloor q + 1

/-- Python `round(q, 1)`: round to one decimal digit, ties to even. -/
def pyRound1 (q : ℚ) : ℚ :=
  (roundHalfEven (q * 10) : ℚ) / 10

/-- Rounding an integer-valued rational returns the integer. -/
theorem roundHalfEven_intCast (n : ℤ) : roundHalfEven ((n : ℤ) : ℚ) = n := by
  unfold roundHalfEven
  rw [ratFloor_eq_floor, Int.floor_intCast]
  have h : ((n : ℤ) : ℚ) - ((n : ℤ) : ℚ) < 1/2 := by norm_num
  rw [if_pos h]

/-- The `Video` class local to download_handler.py: the download stage
(`None` until the first Destination line) and the per-stage progress
dict, updated at the current stage key. -/
structure VideoDH where
  stage : Option Nat
  progress : Option Nat → ℚ

/-- `Video.get_stage_text`: dict lookup `{0: "Video", 1: "Audio"}` on
the current stage; a lookup miss yields Python `None`, on which the
subsequent `.lower()` raises `AttributeError` (modelled as `none`). -/
def get_stage_text (v : VideoDH) (lower : Bool) : Option String :=
  match v.stage with
  | some 0 => some (if lower then "video" else "Video")
  | some 1 => some (if lower then "audio" else "Audio")
  | _ => none

/-- `Video.set_progress`: store the percentage under the current stage
key of the progress dict. -/
def set_progress (v : VideoDH) (pc : ℚ) : VideoDH :=
  { v with progress := fun k => if k = v.stage then pc else v.progress k }

/-- Display intent of the one message `check_percentage` can emit: the
task's line index and the body data (stage text and rounded
percentage) that fill the template `Downloading {s}  {p}%`. -/
structure HookMsg where
  idx : Option Nat
  stageText : String
  pc : ℚ

/-- `ProgressHook` state: `_last_update`, the task's line index, and
the task's video object. -/
structure HookState where
  lastUpdate : ℚ
  idx : Option Nat
  video : VideoDH

/-- Result of one `check_percentage` call: the updated hook state and
the messages put on the message queue. -/
structure HookResult where
  state : HookState
  emitted : List HookMsg

/-- `ProgressHook.check_percentage`: compute
`pc = round(num / den * 100, 1)` (`ZeroDivisionError` on `den = 0`
modelled as `none`), store it as the current stage's progress, and if
more than 0.333 s have passed since the last processed sample emit one
status message (building its body reads the stage text, which raises
when the stage is unset or past 1); finally record the closing
`time.time()` reading as `_last_update`.  `tCheck` and `tEnd` are the
two `time.time()` readings the method makes. -/
def hook_check_percentage (st : HookState) (num den : Nat) (tCheck tEnd : ℚ) :
    Option HookResult :=
  if den = 0 then none
  else
    let pc := pyRound1 ((num : ℚ) / (den : ℚ) * 100)
    let video1 := set_progress st.video pc
    if st.lastUpdate + 333/1000 < tCheck then
      match get_stage_text video1 true with
      | some t =>
          some { state := { st with lastUpdate := tEnd, video := video1 }
                 emitted := [⟨st.idx, t, pc⟩] }
      | none => none
    else
      some { state := { st with lastUpdate := tEnd, video := video1 }
             emitted := [] }

/-- Number of messages emitted by a (possibly failed) hook call. -/
def hookEmittedCount (r : Option HookResult) : Nat :=
  match r with
  | some r => r.emitted.length
  | none => 0

/-- Multiple-of-20 floor used by the claim's thresholding rule. -/
def floor20 (q : ℚ) : ℤ :=
  20 * ratFloor (q / 20)

/-- Hook state used in the C5 counterexample: last update at time 0,
line index 1, video stage 0 with no progress recorded yet. -/
def c5State : HookState :=
  { lastUpdate := 0, idx := some 1, video := { stage := some 0, progress := fun _ => 0 } }

/-- C5 counterexample.  At 10 % (numerator 10 of denominator 100, last
reported progress 0) with 1 s elapsed, the hook emits a message even
though 10 % crosses no new multiple-of-20 threshold relative to the
last reported value — emission is gated on elapsed time, not on
thresholds as the claim states. -/
theorem hook_emits_without_threshold_c5_cex :
    hookEmittedCount (hook_check_percentage c5State 10 100 1 1) = 1 ∧
    pyRound1 ((10 : ℚ) / 100 * 100) = 10 ∧
    floor20 (pyRound1 ((10 : ℚ) / 100 * 100)) = floor20 0 := by
  have harg : (10 : ℚ) / 100 * 100 = ((10 : ℤ) : ℚ) := by norm_num
  have hround : pyRound1 ((10 : ℚ) / 100 * 100) = 10 := by
    rw [harg]
    unfold pyRound1
    have h100 : ((10 : ℤ) : ℚ) * 10 = ((100 : ℤ) : ℚ) := by push_cast; norm_num
    rw [h100, roundHalfEven_intCast]
    push_cast
    norm_num
  refine ⟨?_, hround, ?_⟩
  · have ht : (0 : ℚ) + 333 / 1000 < 1 := by norm_num
    have ht2 : (333 : ℚ) / 1000 < 1 := by norm_num
    simp [hookEmittedCount, hook_check_percentage, c5State, get_stage_text,
      set_progress, ht, ht2]
  · rw [hround]
    unfold floor20
    rw [ratFloor_eq_floor, ratFloor_eq_floor]
    have h1 : (10 : ℚ) / 20 = ((1 : ℤ) : ℚ) / ((2 : ℕ) : ℚ) := by push_cast; norm_num
    have h2 : (0 : ℚ) / 20 = ((0 : ℤ) : ℚ) / ((2 : ℕ) : ℚ) := by push_cast; norm_num
    rw [h1, h2, Rat.floor_intCast_div_natCast, Rat.floor_intCast_div_natCast]
    decide

/-- C5 amended.  For a structured sample with nonzero denominator and
the stage set to 0 or 1, the hook computes
`pc = round(num / den * 100, 1)` (one decimal, ties to even), stores it
as the current stage's progress, emits exactly one status message if
and only if more than 0.333 s elapsed since the last processed sample —
no multiple-of-20 thresholding is applied — and records the closing
time reading as the new `_last_update`. -/
theorem hook_check_percentage_c5_amended (st : HookState) (num den : Nat)
    (tCheck tEnd : ℚ) (hden : den ≠ 0)
    (hstage : st.video.stage = some 0 ∨ st.video.stage = some 1) :
    ∃ r, hook_check_percentage st num den tCheck tEnd = some r ∧
      r.state.lastUpdate = tEnd ∧
      r.state.video.progress st.video.stage = pyRound1 ((num : ℚ) / (den : ℚ) * 100) ∧
      (r.emitted.length = 1 ↔ st.lastUpdate + 333/1000 < tCheck) ∧
      (r.emitted = [] ↔ ¬ st.lastUpdate + 333/1000 < tCheck) := by
  have htext : get_stage_text
      (set_progress st.video (pyRound1 ((num : ℚ) / (den : ℚ) * 100))) true =
      some (if st.video.stage = some 0 then "video" else "audio") := by
    rcases hstage with h | h <;> simp [get_stage_text, set_progress, h]
  have hprog : (set_progress st.video
      (pyRound1 ((num : ℚ) / (den : ℚ) * 100))).progress st.video.stage =
      pyRound1 ((num : ℚ) / (den : ℚ) * 100) := by
    simp [set_progress]
  by_cases ht : st.lastUpdate + 333/1000 < tCheck
  · refine ⟨HookResult.mk
      (HookState.mk tEnd st.idx
        (set_progress st.video (pyRound1 ((num : ℚ) / (den : ℚ) * 100))))
      [HookMsg.mk st.idx (if st.video.stage = some 0 then "video" else "audio")
        (pyRound1 ((num : ℚ) / (den : ℚ) * 100))], ?_, rfl, hprog, ?_, ?_⟩
    · simp only [hook_check_percentage, if_neg hden, if_pos ht, htext]
    · simp [ht]
    · simp [ht]
  · refine ⟨HookResult.mk
      (HookState.mk tEnd st.idx
        (set_progress st.video (pyRound1 ((num : ℚ) / (den : ℚ) * 100))))
      [], ?_, rfl, hprog, ?_, ?_⟩
    · simp only [hook_check_percentage, if_neg hden, if_neg ht]
    · simp [ht]
    · simp [ht]

/-- Closed instance of `hook_check_percentage_c5_amended`: numerator 50
of denominator 200, checked 1 s after the last update. -/
theorem hook_check_percentage_c5_witness :
    ∃ r, hook_check_percentage c5State 50 200 1 2 = some r ∧
      r.state.lastUpdate = 2 ∧
      r.state.video.progress c5State.video.stage =
        pyRound1 ((50 : ℚ) / (200 : ℚ) * 100) ∧
      (r.emitted.length = 1 ↔ c5State.lastUpdate + 333/1000 < 1) ∧
      (r.emitted = [] ↔ ¬ c5State.lastUpdate + 333/1000 < 1) :=
  hook_check_percentage_c5_amended c5State 50 200 1 2 (by decide) (Or.inl rfl)

/-! ## DownloadHandler.run and MultiprocessRunner.run -/

/-- A status message as put on the download handler's queue: optional
line index and text. -/
structure DHMsg where
  idx : Option Nat
  text : String
deriving DecidableEq, Repr

/-- Plural suffix used by the runners' f-strings. -/
def pluralS (n : Nat) : String :=
  if n = 1 then "" else "s"

/-- Pad width used by `store_video_data`: the maximum id length. -/
def padWidth (vids : List String) : Nat :=
  vids.foldl (fun a v => max a v.length) 0

/-- Initial status text of one stored video (`store_video_data` plus
`Status._build`): yellow `?` prefix, magenta padded id header, grey
`Pending` body, joined as `"{p} {h} {b}"`. -/
def initialStatusText (pw : Nat) (vid : String) : String :=
  "\x1b[33m?\x1b[m" ++ " " ++
    ("\x1b[35m" ++ (vid.pushn ' ' (pw - vid.length)) ++ "\x1b[m") ++ " " ++
    "\x1b[30mPending\x1b[m"

/-- Outcome of `DownloadHandler.run` as observable from the method
itself: the status messages it enqueues, in order, and the number of
task worker threads it starts (the dedicated message thread is not a
task worker).  The elapsed-seconds rendering in the final message is
abstracted as `tElapsed`. -/
structure DHRunResult where
  msgs : List DHMsg
  workersStarted : Nat
deriving DecidableEq, Repr

/-- `DownloadHandler.run` (ytdlp_utils/download_handler.py): when no
videos are stored (`None`, or an empty store) enqueue the single
`No video IDs provided` notice at line 0, stop, and return without
creating task threads; otherwise enqueue the `Downloading …` header,
one initial status line per video at lines 1.., start
`max_threads` task threads (default 1), and finish with a
`Downloaded …` summary at line 0. -/
def dh_run (videos : Option (List String)) (maxThreads : Option Nat)
    (tElapsed : String) : DHRunResult :=
  match videos with
  | none =>
      { msgs := [⟨some 0, "\x1b[1;31m✘\x1b[m No video IDs provided"⟩]
        workersStarted := 0 }
  | some vs =>
      if vs.length = 0 then
        { msgs := [⟨some 0, "\x1b[1;31m✘\x1b[m No video IDs provided"⟩]
          workersStarted := 0 }
      else
        let l := vs.length
        let pw := padWidth vs
        let headMsg : DHMsg :=
          ⟨some 0, s!"\x1b[1;32m⁜\x1b[m Downloading {l} video" ++ pluralS l⟩
        let perVideo := ((List.range l).zip vs).map
          (fun p => DHMsg.mk (some (p.1 + 1)) (initialStatusText pw p.2))
        let lastMsg : DHMsg :=
          ⟨some 0, s!"\x1b[1;32m⁜\x1b[m Downloaded {l} video" ++ pluralS l ++
            " in " ++ tElapsed ++ "s"⟩
        { msgs := headMsg :: perVideo ++ [lastMsg]
          workersStarted := match maxThreads with | none => 1 | some n => n }

/-- `MultiprocessRunner._read_file` observed after link parsing: given
the resolved video id list, either the ok message reporting the count
(with the data stored) and `True`, or the `No video IDs found` warning
and `False`. -/
def mpr_read_file (videoIds : List String) : List Msg × Bool :=
  let l := videoIds.length
  if l > 0 then
    ([⟨MsgForm.ok, s!"Found {l} video ID" ++ pluralS l⟩], true)
  else
    ([⟨MsgForm.warn, "No video IDs found"⟩], false)

/-- `MultiprocessRunner.run` (ytdlp_utils/multiprocess_runner.py):
when `_read_file` reports no ids, end the message handler and return —
one warning message and no worker processes; otherwise start `ncore`
processes and finish with a summary message. -/
def mpr_run (videoIds : List String) (ncore : Nat) (tElapsed : String) :
    List Msg × Nat :=
  let rf := mpr_read_file videoIds
  if rf.2 then
    (rf.1 ++ [⟨MsgForm.ok,
      "Video" ++ pluralS videoIds.length ++ " downloaded in " ++ tElapsed ++ "s"⟩],
      ncore)
  else
    (rf.1, 0)

/-- C6.  With an empty initial job set both runs emit exactly one
message and start no workers: `DownloadHandler.run` with no stored
videos enqueues only the `No video IDs provided` notice and starts no
task threads, and `MultiprocessRunner.run` with zero resolved ids
prints only the `No video IDs found` warning and spawns no worker
processes; neither produces a summary (so no failures list). -/
theorem empty_jobset_c6 (videos : Option (List String)) (mt : Option Nat)
    (tE : String) (ids : List String) (nc : Nat) (tE2 : String)
    (hempty : videos = none ∨ videos = some []) (hids : ids = []) :
    (dh_run videos mt tE).msgs.length = 1 ∧
    (dh_run videos mt tE).workersStarted = 0 ∧
    (mpr_run ids nc tE2).1.length = 1 ∧
    (mpr_run ids nc tE2).2 = 0 := by
  subst hids
  rcases hempty with h | h <;> subst h <;>
    exact ⟨rfl, rfl, rfl, rfl⟩

/-- Closed instance of `empty_jobset_c6` with no stored videos and an
empty resolved id list. -/
theorem empty_jobset_c6_witness :
    (dh_run none (some 4) "1.0").msgs.length = 1 ∧
    (dh_run none (some 4) "1.0").workersStarted = 0 ∧
    (mpr_run [] 4 "1.0").1.length = 1 ∧
    (mpr_run [] 4 "1.0").2 = 0 :=
  empty_jobset_c6 none (some 4) "1.0" [] 4 "1.0" (Or.inl rfl) rfl

/-! ## Status line trimming (ytdlp_utils/status_line.py) -/

/-- Python slice `text[:stop]` for a possibly negative stop index: a
negative stop counts from the end of the string, clamping at 0. -/
def pySliceTo (s : List Char) (stop : Int) : List Char :=
  if stop < 0 then s.take (s.length - stop.natAbs) else s.take stop.toNat

/-- `trim_line_len`: return the text unchanged when its length is at
most `maxLen`, otherwise `text[:(max_len - 3)]` with `...`
appended. -/
def trim_line_len (maxLen : Int) (text : List Char) : List Char :=
  if (text.length : Int) > maxLen then
    pySliceTo text (maxLen - 3) ++ ('.' :: '.' :: '.' :: [])
  else
    text

/-- C8 counterexample.  With maximum length 2 and input `abc`, the
result `ab...` has length 5, exceeding the maximum: the slice index
`2 - 3` is negative, so Python keeps all but the last character and
the three-character ellipsis is appended on top. -/
theorem trim_line_len_c8_cex :
    trim_line_len 2 ("abc".toList) = "ab...".toList ∧
    ¬ ((trim_line_len 2 ("abc".toList)).length ≤ 2) := by
  refine ⟨by decide, by decide⟩

/-- C8 amended.  For maximum lengths of at least 3: text at or under
the maximum is returned unchanged, and longer text is trimmed to
exactly the maximum length, ending in the ellipsis `...`.  (Below 3
the slice index `m - 3` is negative and the result exceeds the
maximum.) -/
theorem trim_line_len_c8_amended (m : Int) (t : List Char) (hm : 3 ≤ m) :
    ((t.length : Int) ≤ m → trim_line_len m t = t) ∧
    (m < (t.length : Int) →
      ((trim_line_len m t).length : Int) = m ∧
      ∃ pre, trim_line_len m t = pre ++ ('.' :: '.' :: '.' :: [])) := by
  constructor
  · intro hle
    unfold trim_line_len
    rw [if_neg (by omega)]
  · intro hgt
    unfold trim_line_len pySliceTo
    rw [if_pos (by omega), if_neg (by omega)]
    constructor
    · rw [List.length_append, List.length_take]
      simp only [List.length_cons, List.length_nil]
      push_cast
      omega
    · exact ⟨t.take (m - 3).toNat, rfl⟩

/-- Closed instance of `trim_line_len_c8_amended`: `hello` fits in 10
and is unchanged; `abcdef` is trimmed to exactly 4 characters ending
in the ellipsis. -/
theorem trim_line_len_c8_witness :
    trim_line_len 10 ("hello".toList) = "hello".toList ∧
    ((trim_line_len 4 ("abcdef".toList)).length : Int) = 4 ∧
    ∃ pre, trim_line_len 4 ("abcdef".toList) = pre ++ ('.' :: '.' :: '.' :: []) :=
  ⟨(trim_line_len_c8_amended 10 ("hello".toList) (by decide)).1 (by decide),
   ((trim_line_len_c8_amended 4 ("abcdef".toList) (by decide)).2 (by decide)).1,
   ((trim_line_len_c8_amended 4 ("abcdef".toList) (by decide)).2 (by decide)).2⟩

/-! ## Overwriteable screen (ytdlp_utils/overwriteable.py)

`Overwriteable` declares `buffer`, `content` and `lastlines` in the
class body, so they live on the class object and are shared by every
instance; `__init__` assigns only the per-instance `stream`.
`add_line` and `replace_line` mutate the shared `content` list in
place; `flush` reads `lastlines` through the instance (falling back to
the class attribute until the first flush creates an instance
attribute by assignment) and writes the screen text to the instance's
stream. -/

/-- Class-level state of `Overwriteable`, shared by all instances. -/
structure OvClass where
  content : List String
  lastlines : Nat
  buffer : String
deriving DecidableEq, Repr

/-- Per-instance state of `Overwriteable`: the `lastlines` instance
attribute created by the first `flush` (absent before), and the text
chunks printed so far to the instance's stream. -/
structure OvInst where
  lastlinesInst : Option Nat
  printed : List String
deriving DecidableEq, Repr

/-- `Overwriteable.__init__`: assigns only the per-instance stream; no
class-level attribute is touched, so a new instance carries no screen
content of its own. -/
def ovNew : OvInst :=
  { lastlinesInst := none, printed := [] }

/-- Python `list.insert`: an index at or past the end appends. -/
def pyInsert (l : List String) (i : Nat) (x : String) : List String :=
  if l.length ≤ i then l ++ [x] else l.take i ++ x :: l.drop i

/-- Python `list.pop(i)`: remove index `i`; an out-of-range index
raises `IndexError` (modelled as `none`). -/
def pyPop (l : List String) (i : Nat) : Option (List String) :=
  if i < l.length then some (l.take i ++ l.drop (i + 1)) else none

/-- `Overwriteable.add_line`: append to the class-level content when
`idx` is `None`, otherwise insert at `idx`. -/
def add_line (c : OvClass) (text : String) (idx : Option Nat) : OvClass :=
  match idx with
  | none => { c with content := c.content ++ [text] }
  | some i => { c with content := pyInsert c.content i text }

/-- `Overwriteable.replace_line`: pop the line at `idx`, then insert
the new text at `idx`. -/
def replace_line (c : OvClass) (idx : Nat) (text : String) : Option OvClass :=
  (pyPop c.content idx).map
    (fun rest => { c with content := pyInsert rest idx text })

/-- The screen string built by `Overwriteable._build`: the joined
content followed by the newline that `print` appends. -/
def ovBuildString (c : OvClass) : String :=
  String.intercalate "\n" c.content ++ "\n"

/-- The `lastlines` value read through an instance: the instance
attribute when one exists, the class attribute otherwise. -/
def ovLastlines (c : OvClass) (inst : OvInst) : Nat :=
  inst.lastlinesInst.getD c.lastlines

/-- Count of newline characters in a string (`str.count("\n")`). -/
def countNewlines (s : String) : Nat :=
  (s.toList.filter (fun ch => ch = '\n')).length

/-- `Overwriteable.flush`: build the screen string (through the class
buffer, which ends cleared), emit the cursor-up-and-erase escape when
lines were drawn before, print the screen string to the instance's
stream, and store its newline count as the instance's `lastlines`. -/
def flush (c : OvClass) (inst : OvInst) : OvClass × OvInst :=
  let s := ovBuildString c
  let erase :=
    if ovLastlines c inst > 0 then
      ["\x1b[" ++ toString (ovLastlines c inst) ++ "F\x1b[J"]
    else []
  ({ c with buffer := "" },
   { lastlinesInst := some (countNewlines s)
     printed := inst.printed ++ erase ++ [s] })

/-- C9.  The screen state lives on the class object: a line added
through one instance lands in the single shared content list, the very
same (non-empty) screen text is then flushed through any other
instance and through a freshly constructed instance — whose
constructor touches no class state and which still reads the
class-level `lastlines` — so constructing a new `Overwriteable` does
not yield an independent empty screen. -/
theorem overwriteable_shared_c9 (c : OvClass) (b : OvInst) (t : String) :
    (add_line c t none).content = c.content ++ [t] ∧
    (add_line c t none).content ≠ [] ∧
    (flush (add_line c t none) b).2.printed.getLast? =
      some (ovBuildString (add_line c t none)) ∧
    (flush (add_line c t none) ovNew).2.printed.getLast? =
      some (ovBuildString (add_line c t none)) ∧
    ovLastlines c ovNew = c.lastlines := by
  refine ⟨rfl, by simp [add_line], ?_, ?_, rfl⟩
  · simp only [flush]
    exact List.getLast?_concat _
  · simp only [flush]
    exact List.getLast?_concat _

/-- `DHMessageThread.handle_message`
(ytdlp_utils/download_handler.py): choose `add_line` unless the
message's index is set and strictly within the current content bounds,
in which case choose `replace_line`; then call the chosen method with
the message's fields. -/
def handle_message (c : OvClass) (idx : Option Nat) (text : String) :
    Option OvClass :=
  match idx with
  | some i =>
      if i < c.content.length then replace_line c i text
      else some (add_line c text (some i))
  | none => some (add_line c text none)

/-- C10.  For a message whose line index is set: an index strictly
below the content length replaces that line in place (same length, no
error); an index at or past the end goes through `add_line`, whose
`list.insert` clamps a past-the-end index to an append (length grows
by exactly one, no out-of-range error). -/
theorem handle_message_c10 (c : OvClass) (i : Nat) (text : String) :
    (i < c.content.length →
      handle_message c (some i) text =
        some { c with content := c.content.set i text }) ∧
    (c.content.length ≤ i →
      handle_message c (some i) text =
        some { c with content := c.content ++ [text] }) := by
  constructor
  · intro hlt
    have hpop : pyPop c.content i =
        some (c.content.take i ++ c.content.drop (i + 1)) := by
      simp [pyPop, hlt]
    have hlen : (c.content.take i).length = i := by
      simp [List.length_take]
      omega
    simp only [handle_message, if_pos hlt, replace_line, hpop, Option.map_some']
    rw [List.set_eq_take_cons_drop text hlt]
    by_cases hend : i + 1 < c.content.length
    · have hnotapp : ¬ ((c.content.take i ++ c.content.drop (i + 1)).length ≤ i) := by
        simp only [List.length_append, List.length_take, List.length_drop]
        omega
      simp only [pyInsert, if_neg hnotapp, List.take_left' hlen, List.drop_left' hlen]
    · have hdrop : c.content.drop (i + 1) = [] := by
        apply List.drop_eq_nil_of_le
        omega
      have happ : (c.content.take i ++ c.content.drop (i + 1)).length ≤ i := by
        simp only [hdrop, List.length_append, List.length_take, List.length_nil]
        omega
      simp only [pyInsert, if_pos happ, hdrop]
      simp
  · intro hge
    have hnot : ¬ i < c.content.length := by omega
    simp only [handle_message, if_neg hnot, add_line]
    congr 2
    unfold pyInsert
    rw [if_pos hge]

/-- Closed instance of `handle_message_c10` on the two-line screen
`[a, b]`: replacing line 0 keeps two lines, a message for line 5 is
appended as a third line without an error. -/
theorem handle_message_c10_witness :
    handle_message ⟨["a", "b"], 0, ""⟩ (some 0) "x" =
      some ⟨["x", "b"], 0, ""⟩ ∧
    handle_message ⟨["a", "b"], 0, ""⟩ (some 5) "y" =
      some ⟨["a", "b", "y"], 0, ""⟩ :=
  ⟨(handle_message_c10 ⟨["a", "b"], 0, ""⟩ 0 "x").1 (by decide),
   (handle_message_c10 ⟨["a", "b"], 0, ""⟩ 5 "y").2 (by decide)⟩

/-! ## Link resolution (ytdl_text_link_parser.py and
ytdlp_utils/text_link_parser.py)

The ID-extraction regexes are modelled as scanning functions on
character lists.  `reSearch` tries every start position from the left,
exactly like `re.search`; every pattern used here requires at least
one character, so the empty suffix never matches. -/

/-- Match a literal pattern against the front of `s`, returning the
remainder on success. -/
def litMatchAt : List Char → List Char → Option (List Char)
  | [], s => some s
  | _ :: _, [] => none
  | a :: as, b :: bs => if a = b then litMatchAt as bs else none

/-- Greedy nonempty capture (`[c]+`) for a character class `good`: the
maximal run of matching characters, at least one required. -/
def capturePlus (good : Char → Bool) : List Char → Option (List Char)
  | [] => none
  | c :: rest => if good c then some (c :: rest.takeWhile good) else none

/-- `re.search`: try the pattern at every start position from the
left; the first success wins. -/
def reSearch (pat : List Char → Option (List Char)) : List Char → Option (List Char)
  | [] => none
  | c :: rest =>
      match pat (c :: rest) with
      | some r => some r
      | none => reSearch pat rest

/-- The character class `[\?&]`. -/
def isQA (c : Char) : Bool :=
  c = '?' || c = '&'

/-- Pattern `[\?&]v\=(?P<id>[^\?&]+)` — the `normal` regex of both
parsers (`YtdlTextLinkParser` uses the lookbehind form
`(?<=[\?&]v=)(?P<id>[^\?&]+)`, which extracts the same id). -/
def patNormal (s : List Char) : Option (List Char) :=
  match s with
  | [] => none
  | c :: rest =>
      if isQA c then
        match litMatchAt ['v', '='] rest with
        | some r => capturePlus (fun ch => !isQA ch) r
        | none => none
      else none

/-- Pattern `youtube\.com\/shorts\/(?P<id>[^\?&]+)` of REX_DEFAULT. -/
def patShorts (s : List Char) : Option (List Char) :=
  match litMatchAt ("youtube.com/shorts/".toList) s with
  | some r => capturePlus (fun ch => !isQA ch) r
  | none => none

/-- Pattern `youtu\.be\/(?P<id>[\?&]+)` of REX_DEFAULT — its capture
class is `[\?&]+` (runs of `?` and `&` only), as written in the
source. -/
def patCompact (s : List Char) : Option (List Char) :=
  match litMatchAt ("youtu.be/".toList) s with
  | some r => capturePlus isQA r
  | none => none

/-- Pattern `(?<=youtu\.be\/)(?P<id>[^\?&]+)` — the `short` regex of
`YtdlTextLinkParser` (lookbehind form, same extracted id). -/
def patShort (s : List Char) : Option (List Char) :=
  match litMatchAt ("youtu.be/".toList) s with
  | some r => capturePlus (fun ch => !isQA ch) r
  | none => none

/-- A compiled regex search as a function from a line to the optional
captured id. -/
def searchPat (pat : List Char → Option (List Char)) (s : String) : Option String :=
  (reSearch pat s.toList).map List.asString

/-- `REX_DEFAULT` of ytdlp_utils/text_link_parser.py, in order. -/
def rexDefault : List (String → Option String) :=
  [searchPat patNormal, searchPat patShorts, searchPat patCompact]

/-- `reduce_result` (ytdlp_utils/text_link_parser.py): try each regex
in order on the current entry; on the first match append the captured
id to the accumulator and stop, otherwise return the accumulator
unchanged.  (Every REX_DEFAULT regex defines the `id` group, so the
RuntimeError branch for a missing group is unreachable.) -/
def reduce_result (acc : List String) (crt : String) :
    List (String → Option String) → List String
  | [] => acc
  | r :: rs =>
      match r crt with
      | some i => acc ++ [i]
      | none => reduce_result acc crt rs

/-- `extract_from`: fold `reduce_result` over the data lines, starting
from the empty accumulator. -/
def extract_from (data : List String) (rex : List (String → Option String)) :
    List String :=
  data.foldl (fun acc crt => reduce_result acc crt rex) []

/-- First matching regex over the list, as one optional id. -/
def firstMatch (rex : List (String → Option String)) (s : String) : Option String :=
  rex.findSome? (fun r => r s)

/-- One `reduce_result` call appends exactly the first match, if
any. -/
theorem reduce_result_eq (crt : String) :
    ∀ (rex : List (String → Option String)) (acc : List String),
      reduce_result acc crt rex = acc ++ (firstMatch rex crt).toList := by
  intro rex
  induction rex with
  | nil =>
      intro acc
      simp [reduce_result, firstMatch]
  | cons r rs ih =>
      intro acc
      cases h : r crt with
      | some i => simp [reduce_result, firstMatch, h]
      | none => simp [reduce_result, firstMatch, h, ih acc]

/-- `extract_from` is exactly the ordered `filterMap` of the first
match over the data: well-formed entries contribute their id in order,
malformed entries are silently skipped with no count or warning
anywhere in the pipeline's output. -/
theorem extract_from_eq (rex : List (String → Option String)) (data : List String) :
    extract_from data rex = data.filterMap (firstMatch rex) := by
  have key : ∀ (l : List String) (acc : List String),
      l.foldl (fun acc crt => reduce_result acc crt rex) acc =
        acc ++ l.filterMap (firstMatch rex) := by
    intro l
    induction l with
    | nil => intro acc; simp
    | cons d ds ih =>
        intro acc
        rw [List.foldl_cons, ih, reduce_result_eq]
        cases h : firstMatch rex d with
        | some i => simp [List.filterMap_cons, h]
        | none => simp [List.filterMap_cons, h]
  have := key data []
  simpa [extract_from] using this

/-- Python `str.startswith`. -/
def strStartsWith (v p : String) : Bool :=
  (litMatchAt p.toList v.toList).isSome

/-- `YtdlTextLinkParser._check_link`: try the `normal` regex, then the
`short` regex; return the captured id, or `None` when neither
matches. -/
def check_link (s : String) : Option String :=
  match searchPat patNormal s with
  | some i => some i
  | none => searchPat patShort s

/-- Is a split token skipped by `_store_data` (empty, or a comment
starting with `#` or `//`)? -/
def isCommentOrEmpty (v : String) : Bool :=
  v = "" || strStartsWith v "#" || strStartsWith v "//"

/-- Result of `YtdlTextLinkParser._store_data`: the extracted ids in
order, the malformed count, and the warning messages printed. -/
structure StoreDataResult where
  video_ids : List String
  malformed : Nat
  msgs : List Msg
deriving DecidableEq, Repr

/-- One iteration of the `_store_data` loop: skip empties and
comments, append the id of a well-formed entry, count a malformed
one. -/
def storeDataStep (acc : List String × Nat) (v : String) : List String × Nat :=
  if isCommentOrEmpty v then acc
  else
    match check_link v with
    | some i => (acc.1 ++ [i], acc.2)
    | none => (acc.1, acc.2 + 1)

/-- `YtdlTextLinkParser._store_data`: walk the split tokens collecting
ids in order and counting malformed entries; warn once (with the
count) when any entry was malformed, and warn when no link was found
at all.  No entry raises. -/
def store_data (data : List String) : StoreDataResult :=
  let r := data.foldl storeDataStep ([], 0)
  let mal := r.2
  let warnMalformed :=
    if mal > 0 then
      [Msg.mk MsgForm.warn (s!"{mal} link" ++ pluralS mal ++ " could not be identified")]
    else []
  let warnNone :=
    if r.1.length = 0 then [Msg.mk MsgForm.warn "No links found!"] else []
  { video_ids := r.1, malformed := mal, msgs := warnMalformed ++ warnNone }

/-- C7 counterexample.  In the cited functional pipeline
(ytdlp_utils/text_link_parser.py, `reduce_result`), a malformed entry
is not counted or reported: `hello` matches no REX_DEFAULT pattern,
`reduce_result` leaves the accumulator unchanged, and the whole
resolution output on the single malformed entry is identical to the
output on no input at all — no warning is produced anywhere. -/
theorem malformed_not_reported_c7_cex :
    firstMatch rexDefault "hello" = none ∧
    reduce_result [] "hello" rexDefault = [] ∧
    extract_from ["hello"] rexDefault = extract_from [] rexDefault := by
  refine ⟨by decide, by decide, by decide⟩

/-- The fold underlying `_store_data`, in closed form. -/
theorem storeData_foldl (data : List String) :
    ∀ ids n, data.foldl storeDataStep (ids, n) =
      (ids ++ (data.filter (fun v => !isCommentOrEmpty v)).filterMap check_link,
       n + ((data.filter (fun v => !isCommentOrEmpty v)).filter
         (fun v => (check_link v).isNone)).length) := by
  induction data with
  | nil =>
      intro ids n
      simp
  | cons d ds ih =>
      intro ids n
      by_cases hd : isCommentOrEmpty d
      · rw [List.foldl_cons]
        simp only [storeDataStep, if_pos hd]
        rw [ih ids n]
        simp [List.filter_cons, hd]
      · cases hc : check_link d with
        | some i =>
            rw [List.foldl_cons]
            simp only [storeDataStep, if_neg hd, hc]
            rw [ih (ids ++ [i]) n]
            simp [List.filter_cons, List.filterMap_cons, hd, hc]
        | none =>
            rw [List.foldl_cons]
            simp only [storeDataStep, if_neg hd, hc]
            rw [ih ids (n + 1)]
            simp [List.filter_cons, List.filterMap_cons, hd, hc, Prod.mk.injEq]
            omega

/-- C7 amended.  In the `YtdlTextLinkParser` resolution path,
malformed entries (non-comment lines matching neither ID pattern) are
counted, a warning is emitted whenever the count is positive, no entry
is fatal, and the ids of the well-formed entries are returned in
order.  In the functional `TextLinkParser` path (`reduce_result` /
`extract_from`), resolution likewise returns the ordered ids of the
well-formed entries, but malformed entries are silently skipped: they
are not counted and no warning is produced. -/
theorem link_resolution_c7_amended (data : List String) :
    (store_data data).video_ids =
      (data.filter (fun v => !isCommentOrEmpty v)).filterMap check_link ∧
    (store_data data).malformed =
      ((data.filter (fun v => !isCommentOrEmpty v)).filter
        (fun v => (check_link v).isNone)).length ∧
    (0 < (store_data data).malformed →
      ∃ m ∈ (store_data data).msgs, m.form = MsgForm.warn) ∧
    extract_from data rexDefault = data.filterMap (firstMatch rexDefault) := by
  have hfold := storeData_foldl data [] 0
  refine ⟨?_, ?_, ?_, extract_from_eq rexDefault data⟩
  · simp only [store_data, hfold]
    simp
  · simp only [store_data, hfold]
    simp
  · intro hpos
    simp only [store_data, hfold] at hpos ⊢
    simp only [List.nil_append, Nat.zero_add] at hpos ⊢
    rw [if_pos (by omega)]
    exact ⟨_, List.mem_append_left _ (List.mem_singleton_self _), rfl⟩

/-- Concrete link file tokens: one well-formed watch link, one
malformed entry, one comment. -/
def c7Data : List String :=
  ["https://www.youtube.com/watch?v=abc123", "garbage", "#note"]

/-- Closed instance of `link_resolution_c7_amended` at the concrete
token list: the malformed entry is counted and a warning is present. -/
theorem link_resolution_c7_witness :
    ∃ m ∈ (store_data c7Data).msgs, m.form = MsgForm.warn :=
  (link_resolution_c7_amended c7Data).2.2.1 (by decide)

end YtdlpUtils
